import Mathlib

/-!
Shallow embedding of `src/generate_diagram.py` (csv-to-mermaid).

Strings are Lean `String`s (lists of unicode scalar values); Python's
`str.lower()` is embedded as a per-character ASCII lowering (`Char.toLower`,
which is exactly Python's behaviour on ASCII), `str.strip()` as `strip`,
dropping whitespace from both ends of the character list.

The CSV layer is embedded at the level the program observes it: a header row
(`fieldnames : List String`) and data rows given as lists of cell strings.
`csv.DictReader` semantics are modelled faithfully: a missing cell (a row
shorter than the header) yields `none` (Python's `restval = None`), a
duplicated header name resolves to the last occurrence, and extra cells are
collected under the rest key (only observable through `row.get(None, "")`
when the platform column is absent).  A Python exception while processing a
row (e.g. `None.strip()`) is embedded as `Except.error .rowError`, matching
the `except Exception` handler that aborts the whole pass and returns `None`.
-/

namespace CsvMermaid

/-- Python `s.lower()` restricted to its ASCII behaviour, applied per char. -/
def lowerStr (s : String) : String :=
  ⟨s.data.map Char.toLower⟩

/-- Python `s.strip()`: drop leading and trailing whitespace. -/
def strip (s : String) : String :=
  ⟨((s.data.dropWhile Char.isWhitespace).reverse.dropWhile Char.isWhitespace).reverse⟩

/-- The character class `[a-zA-Z0-9_]` of the sanitizing regex in
`sanitize_for_mermaid_id` (line 8 of the source). -/
def isIdentChar (c : Char) : Prop :=
  (97 ≤ c.toNat ∧ c.toNat ≤ 122) ∨ (65 ≤ c.toNat ∧ c.toNat ≤ 90) ∨
    (48 ≤ c.toNat ∧ c.toNat ≤ 57) ∨ c.toNat = 95

instance (c : Char) : Decidable (isIdentChar c) := by
  unfold isIdentChar; infer_instance

/-- One step of `re.sub(r"[^a-zA-Z0-9_]", "_", ·)`: keep a character of the
class, replace any other character by an underscore. -/
def sanitizeChar (c : Char) : Char :=
  if isIdentChar c then c else '_'

/-- `sanitize_for_mermaid_id` (source lines 6-9):
`re.sub(r"[^a-zA-Z0-9_]", "_", device_name.lower())`. -/
def sanitize_for_mermaid_id (device_name : String) : String :=
  ⟨(lowerStr device_name).data.map sanitizeChar⟩

/-- The value stored for a node: `{"display_name": ..., "platform": ...}`
(source line 59). -/
structure NodeData where
  display_name : String
  platform : String
deriving Repr, DecidableEq

/-- One entry of the `edges` list (source lines 87-91). -/
structure Edge where
  fromKey : String
  toKey : String
  label : String
deriving Repr, DecidableEq

/-- The mutable state of the build pass: the insertion-ordered `nodes` dict,
the `edges` list and the `processed_links` set (source lines 23-27). -/
structure BuildState where
  nodes : List (String × NodeData)
  edges : List Edge
  processed_links : List (String × String)
deriving Repr, DecidableEq

/-- `nodes[key]` / `key in nodes` for the insertion-ordered dict, embedded as
an association list whose keys are unique (a new key is only ever appended
when absent). -/
def lookupNode : List (String × NodeData) → String → Option NodeData
  | [], _ => none
  | p :: ns, key => if p.1 = key then some p.2 else lookupNode ns key

/-- The in-place `nodes[node_key]["platform"] = platform` (source line 62):
the entry keeps its position and its display name, only the platform field is
replaced. -/
def updateNode : List (String × NodeData) → String → String → List (String × NodeData)
  | [], _, _ => []
  | p :: ns, key, platform =>
    if p.1 = key then (p.1, ⟨p.2.display_name, platform⟩) :: ns
    else p :: updateNode ns key platform

/-- `add_or_update_node` (source lines 53-62).  A Python dict keyed by the
lowercased name is embedded as an insertion-ordered association list: a new
key is appended at the end, an in-place platform upgrade keeps the position. -/
def add_or_update_node (nodes : List (String × NodeData)) (name : String)
    (platform : String) : List (String × NodeData) :=
  let node_key := lowerStr name
  match lookupNode nodes node_key with
  | none => nodes ++ [(node_key, ⟨name, if platform = "" then "Unknown" else platform⟩)]
  | some data =>
    if data.platform = "Unknown" ∧ platform ≠ "" then updateNode nodes node_key platform
    else nodes

/-- Python's lexicographic `<` on strings, compared code point by code point. -/
def ltChars : List Char → List Char → Bool
  | [], [] => false
  | [], _ :: _ => true
  | _ :: _, [] => false
  | a :: as, b :: bs => if a < b then true else if b < a then false else ltChars as bs

/-- `tuple(sorted([a, b]))` on two strings: Python's stable two-element sort
swaps exactly when the second element compares less than the first. -/
def sortPair (a b : String) : String × String :=
  if ltChars b.data a.data then (b, a) else (a, b)

/-- A data row as the loop body observes it after the `csv.DictReader` column
lookups: each of the five resolved cells is `some` cell text, or `none` when
the Python expression would be `None` (and `.strip()` would raise). -/
structure RawRow where
  queried : Option String
  neighbor : Option String
  platform : Option String
  local_if : Option String
  remote_if : Option String
deriving Repr, DecidableEq

/-- `col_map` (source lines 38-44) after the mandatory-column check: the four
mandatory resolved header names, and the optional platform header name. -/
structure ColMap where
  queried : String
  neighbor_id : String
  neighbor_platform : Option String
  local_if : String
  remote_if : String
deriving Repr, DecidableEq

/-- Errors of the pass: the missing-mandatory-columns report (with the
expected and the actually found header lists, source lines 46-50), or a
Python exception caught by the generic handler (source lines 96-98). -/
inductive GenError where
  | schemaError (expected found : List String)
  | rowError
deriving Repr, DecidableEq

/-- The dict a `csv.DictReader` builds for one data row, queried at `key`:
`none` when `key` is not a dict key, `some none` when the key is present with
value `None` (`restval`, for a row shorter than the header), `some (some v)`
for a real cell.  A header name occurring twice resolves to the last
occurrence, as in `dict(zip(fieldnames, row))` followed by the restval loop. -/
def dictGet : List String → List String → String → Option (Option String)
  | [], _, _ => none
  | f :: fs, cells, key =>
    match dictGet fs cells.tail key with
    | some v => some v
    | none => if f = key then some cells.head? else none

/-- The five column reads of the loop body (source lines 65-67 and 90), with
`csv.DictReader` cell semantics.  For the platform column (source line 67,
`row.get(col_map['neighbor_platform'], "")`): when the platform header is
absent the lookup key is `None`; the default `""` is returned unless the row
has extra cells, in which case the rest key `None` is present and holds a
list, whose `.strip()` raises (embedded as `none`). -/
def readRow (fieldnames : List String) (cm : ColMap) (cells : List String) : RawRow :=
  { queried := (dictGet fieldnames cells cm.queried).join
    neighbor := (dictGet fieldnames cells cm.neighbor_id).join
    platform :=
      match cm.neighbor_platform with
      | some c => (dictGet fieldnames cells c).join
      | none => if fieldnames.length < cells.length then none else some ""
    local_if := (dictGet fieldnames cells cm.local_if).join
    remote_if := (dictGet fieldnames cells cm.remote_if).join }

/-- The loop body (source lines 64-91) on one row.  The reads of lines 65-67
happen before the empty-name skip; the interface cells are only read on the
edge-appending path (line 90), after the duplicate-link check.  A `none`
cell means the Python `.strip()` call raises, aborting the pass. -/
def processRow (st : BuildState) (r : RawRow) : Except GenError BuildState :=
  match r.queried, r.neighbor, r.platform with
  | some q0, some n0, some p0 =>
    let queried_device_name := strip q0
    let neighbor_device_name := strip n0
    let platform := strip p0
    if queried_device_name = "" ∨ neighbor_device_name = "" then
      .ok st
    else
      let nodes2 :=
        add_or_update_node
          (add_or_update_node st.nodes queried_device_name "")
          neighbor_device_name platform
      let link_signature :=
        sortPair (lowerStr queried_device_name) (lowerStr neighbor_device_name)
      if link_signature ∈ st.processed_links then
        .ok ⟨nodes2, st.edges, st.processed_links⟩
      else
        match r.local_if, r.remote_if with
        | some l0, some rm0 =>
          .ok ⟨nodes2,
               st.edges ++ [⟨lowerStr queried_device_name,
                            lowerStr neighbor_device_name,
                            strip l0 ++ " -- " ++ strip rm0⟩],
               link_signature :: st.processed_links⟩
        | _, _ => .error .rowError
  | _, _, _ => .error .rowError

/-- The `for row in reader` loop (source line 64): rows are processed in
order; the first exception aborts the whole pass. -/
def processRows (fieldnames : List String) (cm : ColMap) :
    BuildState → List (List String) → Except GenError BuildState
  | st, [] => .ok st
  | st, cells :: rest =>
    match processRow st (readRow fieldnames cm cells) with
    | .ok st1 => processRows fieldnames cm st1 rest
    | .error e => .error e

/-- `find_col` (source lines 34-35): first header matching case-insensitively. -/
def find_col (fieldnames : List String) (name : String) : Option String :=
  fieldnames.find? (fun col => lowerStr col == lowerStr name)

/-- The required-column names listed in the error report (source line 48). -/
def requiredColumnsReport : List String :=
  ["Queried_Device_Name", "Neighbor_Device_ID", "Local_Interface", "Remote_Interface"]

def escapeChars : List Char → List Char
  | [] => []
  | c :: cs =>
    if c = '"' then '#' :: 'q' :: 'u' :: 'o' :: 't' :: ';' :: escapeChars cs
    else c :: escapeChars cs

/-- `label.replace('"', '#quot;')` (source line 116). -/
def escapeLabel (s : String) : String :=
  ⟨escapeChars s.data⟩

/-- One node-definition line (source lines 103-110). -/
def nodeLine (node_key : String) (data : NodeData) : String :=
  let node_id := sanitize_for_mermaid_id node_key
  let display_platform :=
    if data.platform ≠ "" ∧ data.platform ≠ "Unknown" then
      "<br/><i>" ++ data.platform ++ "</i>"
    else ""
  "    " ++ node_id ++ "[\"" ++ data.display_name ++ display_platform ++ "\"];\n"

/-- One edge-definition line (source lines 113-117). -/
def edgeLine (e : Edge) : String :=
  let from_id := sanitize_for_mermaid_id e.fromKey
  let to_id := sanitize_for_mermaid_id e.toKey
  let label := escapeLabel e.label
  "    " ++ from_id ++ " ---|\"" ++ label ++ "\"| " ++ to_id ++ ";\n"

/-- The emitter (source lines 100-117). -/
def emitScript (st : BuildState) : String :=
  "graph TD;\n\n" ++ "    %% Node Definitions\n" ++
    String.join (st.nodes.map (fun p => nodeLine p.1 p.2)) ++
    "\n    %% Edge Definitions (Connections)\n" ++
    String.join (st.edges.map edgeLine)

/-- Initial builder state (source lines 23-27). -/
def initState : BuildState := ⟨[], [], []⟩

/-- The deduplication signature of an already-stored edge: the sorted pair of
its two (already lowercased) endpoint keys. -/
def edgeSig (e : Edge) : String × String :=
  sortPair e.fromKey e.toKey

/-- First-seen accumulation: record a key only the first time it shows up. -/
def firstSeenStep (acc : List String) (key : String) : List String :=
  if key ∈ acc then acc else acc ++ [key]

/-- Modelled from the spec's testable property: the distinct (case-insensitive)
device names appearing as queried or neighbor device in at least one valid
row, lowercased, in first-seen order of the input stream. -/
def specNodeKeysFrom (acc : List String) : List RawRow → List String
  | [] => acc
  | r :: rest =>
    match r.queried, r.neighbor, r.platform with
    | some q0, some n0, some _ =>
      if strip q0 = "" ∨ strip n0 = "" then specNodeKeysFrom acc rest
      else
        specNodeKeysFrom
          (firstSeenStep (firstSeenStep acc (lowerStr (strip q0))) (lowerStr (strip n0)))
          rest
    | _, _, _ => specNodeKeysFrom acc rest

/-- See `specNodeKeysFrom`: first-seen lowered device keys of a row list. -/
def specNodeKeys (rows : List RawRow) : List String :=
  specNodeKeysFrom [] rows

/-- A valid row: both device-name cells are readable and non-empty after
trimming (the rows that contribute to the diagram). -/
def validCells (fieldnames : List String) (cm : ColMap) (cells : List String) : Bool :=
  match (readRow fieldnames cm cells).queried, (readRow fieldnames cm cells).neighbor with
  | some q0, some n0 => strip q0 != "" && strip n0 != ""
  | _, _ => false

/-- Number of valid rows in the input. -/
def countValid (fieldnames : List String) (cm : ColMap) (rows : List (List String)) : Nat :=
  rows.countP (validCells fieldnames cm)

/-- Observable outcome of the save step: the returned script and the console
reports. -/
structure SaveOutcome where
  returned : String
  stdout : List String
  stderr : List String
deriving Repr, DecidableEq

/-- The save step (source lines 119-128): when an output path was given the
write is attempted; success prints a banner, failure only reports to stderr.
Either way control falls through to `return mermaid_script` (line 128).
`writeOk` abstracts whether the filesystem write raises. -/
def saveAndReturn (mermaid_script : String) (output_file : Option String)
    (writeOk : Bool) : SaveOutcome :=
  match output_file with
  | none => ⟨mermaid_script, [], []⟩
  | some path =>
    if writeOk then ⟨mermaid_script, ["Mermaid script saved to " ++ path], []⟩
    else ⟨mermaid_script, [], ["Error writing to file"]⟩

/-- The exit code of `main` (source lines 155-162): `sys.exit(1)` exactly when
the pipeline's result is falsy (`None` or the empty string), 0 otherwise. -/
def mainExitCode (mermaid_output : Option String) : Nat :=
  match mermaid_output with
  | some s => if s = "" then 1 else 0
  | none => 1

/-- What `main` prints to stdout (source lines 156-160): the banner and the
script between fenced markers, only when the result is truthy. -/
def mainStdout (mermaid_output : Option String) : List String :=
  match mermaid_output with
  | some s =>
    if s = "" then []
    else ["Successfully generated Mermaid diagram script:", "```mermaid", s, "```",
          "Paste the content into a Mermaid live editor: https://mermaid.live"]
  | none => []

/-- `generate_mermaid_from_csv` (source lines 11-128), with the file already
read into a header row and data rows.  `Except.error` plays the role of the
`None` return (after the corresponding `stderr` report). -/
def generate_mermaid_from_csv (fieldnames : List String) (rows : List (List String)) :
    Except GenError String :=
  let qc := find_col fieldnames "Queried_Device_Name"
  let nc := find_col fieldnames "Neighbor_Device_ID"
  let pc := find_col fieldnames "Neighbor_Platform"
  let lc := find_col fieldnames "local_interface"
  let rc := find_col fieldnames "Remote_Interface"
  match qc, nc, lc, rc with
  | some cq, some cn, some cl, some cr =>
    match processRows fieldnames ⟨cq, cn, pc, cl, cr⟩ initState rows with
    | .ok st => .ok (emitScript st)
    | .error e => .error e
  | _, _, _, _ => .error (.schemaError requiredColumnsReport fieldnames)


/-! ### Lemmas about the node dictionary -/

theorem lookupNode_append (ns : List (String × NodeData)) (k' : String) (d' : NodeData)
    (k : String) :
    lookupNode (ns ++ [(k', d')]) k =
      match lookupNode ns k with
      | some d => some d
      | none => if k' = k then some d' else none := by
  induction ns with
  | nil => simp [lookupNode]
  | cons p ps ih =>
    by_cases h : p.1 = k
    · simp [lookupNode, h]
    · simp [lookupNode, h, ih]

theorem lookupNode_updateNode (ns : List (String × NodeData)) (key platform k : String) :
    lookupNode (updateNode ns key platform) k =
      if k = key then
        (lookupNode ns key).map (fun d => ⟨d.display_name, platform⟩)
      else lookupNode ns k := by
  induction ns with
  | nil => simp [lookupNode, updateNode]
  | cons p ps ih =>
    by_cases hp : p.1 = key
    · by_cases hk : k = key
      · subst hk; simp [updateNode, lookupNode, hp]
      · have h1 : key ≠ k := fun h => hk h.symm
        simp [updateNode, lookupNode, hp, hk, h1]
    · by_cases hk : k = key
      · subst hk
        simp [updateNode, lookupNode, hp, ih]
      · by_cases hpk : p.1 = k
        · simp [updateNode, lookupNode, hp, hpk, hk]
        · simp [updateNode, lookupNode, hp, hpk, hk, ih]

theorem keys_updateNode (ns : List (String × NodeData)) (key platform : String) :
    (updateNode ns key platform).map Prod.fst = ns.map Prod.fst := by
  induction ns with
  | nil => rfl
  | cons p ps ih =>
    by_cases hp : p.1 = key
    · simp [updateNode, hp]
    · simp [updateNode, hp, ih]

theorem lookupNode_eq_none_iff (ns : List (String × NodeData)) (k : String) :
    lookupNode ns k = none ↔ k ∉ ns.map Prod.fst := by
  induction ns with
  | nil => simp [lookupNode]
  | cons p ps ih =>
    simp only [lookupNode, List.map_cons, List.mem_cons]
    by_cases hp : p.1 = k
    · simp [hp]
    · rw [if_neg hp, ih]
      constructor
      · intro h hk
        rcases hk with h1 | h2
        · exact hp h1.symm
        · exact h h2
      · intro h h2
        exact h (Or.inr h2)

theorem keys_add (nodes : List (String × NodeData)) (name platform : String) :
    (add_or_update_node nodes name platform).map Prod.fst =
      firstSeenStep (nodes.map Prod.fst) (lowerStr name) := by
  unfold firstSeenStep
  cases h : lookupNode nodes (lowerStr name) with
  | none =>
    have hm : lowerStr name ∉ nodes.map Prod.fst := (lookupNode_eq_none_iff _ _).mp h
    simp [add_or_update_node, h, hm]
  | some d =>
    have hm : lowerStr name ∈ nodes.map Prod.fst := by
      by_contra hc
      rw [← lookupNode_eq_none_iff] at hc
      rw [h] at hc
      exact Option.noConfusion hc
    by_cases hc : d.platform = "Unknown" ∧ platform ≠ ""
    · simp [add_or_update_node, h, hc, keys_updateNode, hm]
    · simp [add_or_update_node, h, hc, hm]

theorem lookupNode_add_of_ne (nodes : List (String × NodeData)) (name platform k : String)
    (hk : k ≠ lowerStr name) :
    lookupNode (add_or_update_node nodes name platform) k = lookupNode nodes k := by
  cases h : lookupNode nodes (lowerStr name) with
  | none =>
    simp only [add_or_update_node, h]
    rw [lookupNode_append]
    cases hlk : lookupNode nodes k with
    | some d => rfl
    | none =>
      simp only [hlk]
      rw [if_neg (fun hh => hk hh.symm)]
  | some d =>
    by_cases hc : d.platform = "Unknown" ∧ platform ≠ ""
    · simp only [add_or_update_node, h, if_pos hc]
      rw [lookupNode_updateNode]
      simp [hk]
    · simp [add_or_update_node, h, hc]

theorem lookupNode_add_self (nodes : List (String × NodeData)) (name platform : String) :
    lookupNode (add_or_update_node nodes name platform) (lowerStr name) =
      match lookupNode nodes (lowerStr name) with
      | none => some ⟨name, if platform = "" then "Unknown" else platform⟩
      | some d =>
        if d.platform = "Unknown" ∧ platform ≠ "" then some ⟨d.display_name, platform⟩
        else some d := by
  cases h : lookupNode nodes (lowerStr name) with
  | none =>
    simp only [add_or_update_node, h]
    rw [lookupNode_append]
    simp [h]
  | some d =>
    by_cases hc : d.platform = "Unknown" ∧ platform ≠ ""
    · simp only [add_or_update_node, h, if_pos hc]
      rw [lookupNode_updateNode]
      simp [h, hc]
    · simp [add_or_update_node, h, hc]

theorem lookupNode_add_self_isSome (nodes : List (String × NodeData)) (name platform : String) :
    (lookupNode (add_or_update_node nodes name platform) (lowerStr name)).isSome := by
  rw [lookupNode_add_self]
  cases h : lookupNode nodes (lowerStr name) with
  | none => simp
  | some d =>
    by_cases hc : d.platform = "Unknown" ∧ platform ≠ ""
    · simp [hc]
    · simp [hc]

theorem lookupNode_add_isSome (nodes : List (String × NodeData)) (name platform k : String)
    (h : (lookupNode nodes k).isSome) :
    (lookupNode (add_or_update_node nodes name platform) k).isSome := by
  by_cases hk : k = lowerStr name
  · subst hk
    exact lookupNode_add_self_isSome nodes name platform
  · rw [lookupNode_add_of_ne _ _ _ _ hk]
    exact h

theorem length_add_le (nodes : List (String × NodeData)) (name platform : String) :
    (add_or_update_node nodes name platform).length ≤ nodes.length + 1 := by
  have h := congrArg List.length (keys_add nodes name platform)
  rw [List.length_map] at h
  rw [h]
  unfold firstSeenStep
  split
  · simp
  · simp

/-! ### Path lemmas for the loop body -/

theorem processRow_skip (st : BuildState) (q0 n0 p0 : String) (l rm : Option String)
    (hskip : strip q0 = "" ∨ strip n0 = "") :
    processRow st ⟨some q0, some n0, some p0, l, rm⟩ = .ok st := by
  simp only [processRow]
  rw [if_pos hskip]

theorem processRow_dup (st : BuildState) (q0 n0 p0 : String) (l rm : Option String)
    (hq : ¬ strip q0 = "") (hn : ¬ strip n0 = "")
    (hdup : sortPair (lowerStr (strip q0)) (lowerStr (strip n0)) ∈ st.processed_links) :
    processRow st ⟨some q0, some n0, some p0, l, rm⟩ =
      .ok ⟨add_or_update_node (add_or_update_node st.nodes (strip q0) "") (strip n0) (strip p0),
           st.edges, st.processed_links⟩ := by
  simp only [processRow]
  rw [if_neg (not_or.mpr ⟨hq, hn⟩), if_pos hdup]

theorem processRow_fresh (st : BuildState) (q0 n0 p0 l0 rm0 : String)
    (hq : ¬ strip q0 = "") (hn : ¬ strip n0 = "")
    (hfresh : sortPair (lowerStr (strip q0)) (lowerStr (strip n0)) ∉ st.processed_links) :
    processRow st ⟨some q0, some n0, some p0, some l0, some rm0⟩ =
      .ok ⟨add_or_update_node (add_or_update_node st.nodes (strip q0) "") (strip n0) (strip p0),
           st.edges ++ [⟨lowerStr (strip q0), lowerStr (strip n0),
                         strip l0 ++ " -- " ++ strip rm0⟩],
           sortPair (lowerStr (strip q0)) (lowerStr (strip n0)) :: st.processed_links⟩ := by
  simp only [processRow]
  rw [if_neg (not_or.mpr ⟨hq, hn⟩), if_neg hfresh]

theorem processRow_none_error (st : BuildState) (r : RawRow)
    (hbad : r.queried = none ∨ r.neighbor = none ∨ r.platform = none) :
    processRow st r = .error .rowError := by
  obtain ⟨rq, rn, rp, rl, rr⟩ := r
  simp only at hbad
  cases rq with
  | none => rfl
  | some q0 =>
    cases rn with
    | none => rfl
    | some n0 =>
      cases rp with
      | none => rfl
      | some p0 => simp at hbad

theorem processRow_error_rowError (st : BuildState) (r : RawRow) (e : GenError)
    (h : processRow st r = .error e) : e = .rowError := by
  obtain ⟨rq, rn, rp, rl, rr⟩ := r
  cases rq with
  | none => simp [processRow] at h; exact h.symm
  | some q0 =>
    cases rn with
    | none => simp [processRow] at h; exact h.symm
    | some n0 =>
      cases rp with
      | none => simp [processRow] at h; exact h.symm
      | some p0 =>
        simp only [processRow] at h
        split at h
        · exact absurd h (by simp)
        · split at h
          · exact absurd h (by simp)
          · cases rl with
            | none => simp at h; exact h.symm
            | some l0 =>
              cases rr with
              | none => simp at h; exact h.symm
              | some rm0 => exact absurd h (by simp)

theorem processRows_error_rowError (fieldnames : List String) (cm : ColMap) :
    ∀ (rows : List (List String)) (st : BuildState) (e : GenError),
      processRows fieldnames cm st rows = .error e → e = .rowError := by
  intro rows
  induction rows with
  | nil => intro st e h; exact absurd h (by simp [processRows])
  | cons c cs ih =>
    intro st e h
    simp only [processRows] at h
    cases hp : processRow st (readRow fieldnames cm c) with
    | ok st1 =>
      rw [hp] at h
      exact ih st1 e h
    | error e1 =>
      rw [hp] at h
      have he1 : e1 = GenError.rowError := processRow_error_rowError _ _ _ hp
      cases h
      exact he1

theorem processRows_badRow_error (fieldnames : List String) (cm : ColMap)
    (rows1 rows2 : List (List String)) (cells : List String)
    (hbad : (readRow fieldnames cm cells).queried = none ∨
            (readRow fieldnames cm cells).neighbor = none ∨
            (readRow fieldnames cm cells).platform = none) :
    ∀ st : BuildState,
      processRows fieldnames cm st (rows1 ++ cells :: rows2) = .error .rowError := by
  induction rows1 with
  | nil =>
    intro st
    simp only [List.nil_append, processRows]
    rw [processRow_none_error st _ hbad]
  | cons c cs ih =>
    intro st
    simp only [List.cons_append, processRows]
    cases hp : processRow st (readRow fieldnames cm c) with
    | ok st1 => exact ih st1
    | error e1 =>
      have he1 : e1 = GenError.rowError := processRow_error_rowError _ _ _ hp
      rw [he1]

/-! ### Shape of a successful loop-body step -/

theorem processRow_fresh_missingIf (st : BuildState) (q0 n0 p0 : String)
    (l rm : Option String) (hq : ¬ strip q0 = "") (hn : ¬ strip n0 = "")
    (hfresh : sortPair (lowerStr (strip q0)) (lowerStr (strip n0)) ∉ st.processed_links)
    (hbad : l = none ∨ rm = none) :
    processRow st ⟨some q0, some n0, some p0, l, rm⟩ = .error .rowError := by
  simp only [processRow]
  rw [if_neg (not_or.mpr ⟨hq, hn⟩), if_neg hfresh]
  rcases hbad with h | h
  · subst h; cases rm <;> rfl
  · subst h; cases l <;> rfl

theorem processRow_ok_shape (st st' : BuildState) (r : RawRow)
    (h : processRow st r = .ok st') :
    st' = st ∨
    (∃ q0 n0 p0,
      r.queried = some q0 ∧ r.neighbor = some n0 ∧ r.platform = some p0 ∧
      ¬ strip q0 = "" ∧ ¬ strip n0 = "" ∧
      st'.nodes =
        add_or_update_node (add_or_update_node st.nodes (strip q0) "") (strip n0) (strip p0) ∧
      ((sortPair (lowerStr (strip q0)) (lowerStr (strip n0)) ∈ st.processed_links ∧
        st'.edges = st.edges ∧ st'.processed_links = st.processed_links) ∨
       (sortPair (lowerStr (strip q0)) (lowerStr (strip n0)) ∉ st.processed_links ∧
        (∃ l0 rm0, r.local_if = some l0 ∧ r.remote_if = some rm0 ∧
          st'.edges = st.edges ++ [⟨lowerStr (strip q0), lowerStr (strip n0),
                                    strip l0 ++ " -- " ++ strip rm0⟩] ∧
          st'.processed_links =
            sortPair (lowerStr (strip q0)) (lowerStr (strip n0)) :: st.processed_links)))) := by
  obtain ⟨rq, rn, rp, rl, rr⟩ := r
  cases rq with
  | none => exact absurd h (by simp [processRow])
  | some q0 =>
  cases rn with
  | none => exact absurd h (by simp [processRow])
  | some n0 =>
  cases rp with
  | none => exact absurd h (by simp [processRow])
  | some p0 =>
  by_cases hskip : strip q0 = "" ∨ strip n0 = ""
  · left
    rw [processRow_skip st q0 n0 p0 rl rr hskip] at h
    injection h with h
    exact h.symm
  · push_neg at hskip
    right
    by_cases hdup : sortPair (lowerStr (strip q0)) (lowerStr (strip n0)) ∈ st.processed_links
    · rw [processRow_dup st q0 n0 p0 rl rr hskip.1 hskip.2 hdup] at h
      injection h with h
      subst h
      exact ⟨q0, n0, p0, rfl, rfl, rfl, hskip.1, hskip.2, rfl, Or.inl ⟨hdup, rfl, rfl⟩⟩
    · cases rl with
      | none =>
        rw [processRow_fresh_missingIf st q0 n0 p0 none rr hskip.1 hskip.2 hdup
          (Or.inl rfl)] at h
        exact absurd h (by simp)
      | some l0 =>
      cases rr with
      | none =>
        rw [processRow_fresh_missingIf st q0 n0 p0 (some l0) none hskip.1 hskip.2 hdup
          (Or.inr rfl)] at h
        exact absurd h (by simp)
      | some rm0 =>
        rw [processRow_fresh st q0 n0 p0 l0 rm0 hskip.1 hskip.2 hdup] at h
        injection h with h
        subst h
        exact ⟨q0, n0, p0, rfl, rfl, rfl, hskip.1, hskip.2, rfl,
          Or.inr ⟨hdup, l0, rm0, rfl, rfl, rfl, rfl⟩⟩

/-! ### Platform monotonicity -/

theorem lookupNode_add_frozen (nodes : List (String × NodeData)) (name platform k : String)
    (d : NodeData) (hd : lookupNode nodes k = some d) (hpf : d.platform ≠ "Unknown") :
    lookupNode (add_or_update_node nodes name platform) k = some d := by
  by_cases hk : k = lowerStr name
  · subst hk
    rw [lookupNode_add_self, hd]
    show (if d.platform = "Unknown" ∧ platform ≠ "" then
            some ⟨d.display_name, platform⟩ else some d) = some d
    rw [if_neg (by rintro ⟨h1, _⟩; exact hpf h1)]
  · rw [lookupNode_add_of_ne _ _ _ _ hk]
    exact hd

theorem processRow_platform_frozen (st st' : BuildState) (r : RawRow) (k : String)
    (d : NodeData) (h : processRow st r = .ok st')
    (hd : lookupNode st.nodes k = some d) (hpf : d.platform ≠ "Unknown") :
    lookupNode st'.nodes k = some d := by
  rcases processRow_ok_shape st st' r h with heq | ⟨q0, n0, p0, _, _, _, _, _, hnodes, _⟩
  · rw [heq]; exact hd
  · rw [hnodes]
    exact lookupNode_add_frozen _ _ _ _ _ (lookupNode_add_frozen _ _ _ _ _ hd hpf) hpf

theorem processRows_platform_frozen (fieldnames : List String) (cm : ColMap) :
    ∀ (rows : List (List String)) (st0 st : BuildState) (k : String) (d : NodeData),
      processRows fieldnames cm st0 rows = .ok st →
      lookupNode st0.nodes k = some d → d.platform ≠ "Unknown" →
      lookupNode st.nodes k = some d := by
  intro rows
  induction rows with
  | nil =>
    intro st0 st k d h hd hpf
    cases h
    exact hd
  | cons c cs ih =>
    intro st0 st k d h hd hpf
    simp only [processRows] at h
    cases hp : processRow st0 (readRow fieldnames cm c) with
    | error e => rw [hp] at h; exact absurd h (by simp)
    | ok st1 =>
      rw [hp] at h
      exact ih st1 st k d h (processRow_platform_frozen st0 st1 _ k d hp hd hpf) hpf

/-! ### Builder invariants along the row loop -/

theorem processRows_bounds (fieldnames : List String) (cm : ColMap) :
    ∀ (rows : List (List String)) (st0 st : BuildState),
      processRows fieldnames cm st0 rows = .ok st →
      st.nodes.length ≤ st0.nodes.length + 2 * countValid fieldnames cm rows ∧
      st.edges.length ≤ st0.edges.length + countValid fieldnames cm rows := by
  intro rows
  induction rows with
  | nil =>
    intro st0 st h
    cases h
    simp [countValid]
  | cons c cs ih =>
    intro st0 st h
    simp only [processRows] at h
    cases hp : processRow st0 (readRow fieldnames cm c) with
    | error e => rw [hp] at h; exact absurd h (by simp)
    | ok st1 =>
      rw [hp] at h
      have hcnt : countValid fieldnames cm (c :: cs) =
          countValid fieldnames cm cs + (if validCells fieldnames cm c then 1 else 0) := by
        simp [countValid, List.countP_cons]
      obtain ⟨h1, h2⟩ := ih st1 st h
      rcases processRow_ok_shape st0 st1 _ hp with heq |
        ⟨q0, n0, p0, hq, hn, hpz, hq', hn', hnodes, harm⟩
      · subst heq
        refine ⟨?_, ?_⟩ <;> (rw [hcnt]; split <;> omega)
      · have hval : validCells fieldnames cm c = true := by
          simp only [validCells, hq, hn]
          simp [hq', hn']
        have hn1 : st1.nodes.length ≤ st0.nodes.length + 2 := by
          rw [hnodes]
          have ha := length_add_le (add_or_update_node st0.nodes (strip q0) "")
            (strip n0) (strip p0)
          have hb := length_add_le st0.nodes (strip q0) ""
          omega
        have he1 : st1.edges.length ≤ st0.edges.length + 1 := by
          rcases harm with ⟨_, he, _⟩ | ⟨_, l0, rm0, _, _, he, _⟩
          · rw [he]; omega
          · rw [he]; simp
        rw [hcnt, if_pos hval]
        omega

theorem processRows_endpoints (fieldnames : List String) (cm : ColMap) :
    ∀ (rows : List (List String)) (st0 st : BuildState),
      processRows fieldnames cm st0 rows = .ok st →
      (∀ e ∈ st0.edges, (lookupNode st0.nodes e.fromKey).isSome ∧
                        (lookupNode st0.nodes e.toKey).isSome) →
      ∀ e ∈ st.edges, (lookupNode st.nodes e.fromKey).isSome ∧
                      (lookupNode st.nodes e.toKey).isSome := by
  intro rows
  induction rows with
  | nil =>
    intro st0 st h hinv
    cases h
    exact hinv
  | cons c cs ih =>
    intro st0 st h hinv
    simp only [processRows] at h
    cases hp : processRow st0 (readRow fieldnames cm c) with
    | error e => rw [hp] at h; exact absurd h (by simp)
    | ok st1 =>
      rw [hp] at h
      refine ih st1 st h ?_
      rcases processRow_ok_shape st0 st1 _ hp with heq |
        ⟨q0, n0, p0, hq, hn, hpz, hq', hn', hnodes, harm⟩
      · subst heq; exact hinv
      · intro e he
        rcases harm with ⟨_, hedg, _⟩ | ⟨_, l0, rm0, _, _, hedg, _⟩
        · rw [hedg] at he
          obtain ⟨hf, ht⟩ := hinv e he
          rw [hnodes]
          exact ⟨lookupNode_add_isSome _ _ _ _ (lookupNode_add_isSome _ _ _ _ hf),
                 lookupNode_add_isSome _ _ _ _ (lookupNode_add_isSome _ _ _ _ ht)⟩
        · rw [hedg] at he
          rcases List.mem_append.mp he with hold | hnew
          · obtain ⟨hf, ht⟩ := hinv e hold
            rw [hnodes]
            exact ⟨lookupNode_add_isSome _ _ _ _ (lookupNode_add_isSome _ _ _ _ hf),
                   lookupNode_add_isSome _ _ _ _ (lookupNode_add_isSome _ _ _ _ ht)⟩
          · rw [List.mem_singleton] at hnew
            subst hnew
            rw [hnodes]
            constructor
            · exact lookupNode_add_isSome _ _ _ _ (lookupNode_add_self_isSome _ _ _)
            · exact lookupNode_add_self_isSome _ _ _

theorem processRows_edgeSig_inv (fieldnames : List String) (cm : ColMap) :
    ∀ (rows : List (List String)) (st0 st : BuildState),
      processRows fieldnames cm st0 rows = .ok st →
      (∀ e ∈ st0.edges, edgeSig e ∈ st0.processed_links) →
      (st0.edges.map edgeSig).Nodup →
      (∀ e ∈ st.edges, edgeSig e ∈ st.processed_links) ∧ (st.edges.map edgeSig).Nodup := by
  intro rows
  induction rows with
  | nil =>
    intro st0 st h hsig hnd
    cases h
    exact ⟨hsig, hnd⟩
  | cons c cs ih =>
    intro st0 st h hsig hnd
    simp only [processRows] at h
    cases hp : processRow st0 (readRow fieldnames cm c) with
    | error e => rw [hp] at h; exact absurd h (by simp)
    | ok st1 =>
      rw [hp] at h
      rcases processRow_ok_shape st0 st1 _ hp with heq |
        ⟨q0, n0, p0, hq, hn, hpz, hq', hn', hnodes, harm⟩
      · subst heq; exact ih st1 st h hsig hnd
      · rcases harm with ⟨_, hedg, hpl⟩ | ⟨hfresh, l0, rm0, _, _, hedg, hpl⟩
        · refine ih st1 st h ?_ ?_
          · rw [hedg, hpl]; exact hsig
          · rw [hedg]; exact hnd
        · refine ih st1 st h ?_ ?_
          · rw [hedg, hpl]
            intro e he
            rcases List.mem_append.mp he with hold | hnew
            · exact List.mem_cons_of_mem _ (hsig e hold)
            · rw [List.mem_singleton] at hnew
              subst hnew
              exact List.mem_cons_self _ _
          · rw [hedg, List.map_append]
            refine List.Nodup.append hnd (List.nodup_singleton _) ?_
            intro x hx hx2
            simp only [List.map_cons, List.map_nil, List.mem_singleton] at hx2
            subst hx2
            rcases List.mem_map.mp hx with ⟨e, he3, hsig_e⟩
            have hmem := hsig e he3
            rw [hsig_e] at hmem
            exact hfresh hmem

/-! ### Keys of the node dictionary along the loop -/

theorem lowerStr_ne_empty (s : String) (h : s ≠ "") : lowerStr s ≠ "" := by
  intro hc
  apply h
  have h3 : s.data.map Char.toLower = [] := congrArg String.data hc
  have h4 : s.data = [] := List.map_eq_nil_iff.mp h3
  cases s with
  | mk d =>
    simp only at h4
    rw [h4]

theorem add_keys_ne (nodes : List (String × NodeData)) (name platform : String)
    (hname : lowerStr name ≠ "") (hinv : ∀ p ∈ nodes, p.1 ≠ "") :
    ∀ p ∈ add_or_update_node nodes name platform, p.1 ≠ "" := by
  intro p hp
  have hmem : p.1 ∈ (add_or_update_node nodes name platform).map Prod.fst :=
    List.mem_map_of_mem _ hp
  rw [keys_add] at hmem
  unfold firstSeenStep at hmem
  split at hmem
  · rcases List.mem_map.mp hmem with ⟨q, hq, hq2⟩
    rw [← hq2]
    exact hinv q hq
  · rcases List.mem_append.mp hmem with h1 | h1
    · rcases List.mem_map.mp h1 with ⟨q, hq, hq2⟩
      rw [← hq2]
      exact hinv q hq
    · rw [List.mem_singleton] at h1
      rw [h1]
      exact hname

theorem processRows_keys_ne (fieldnames : List String) (cm : ColMap) :
    ∀ (rows : List (List String)) (st0 st : BuildState),
      processRows fieldnames cm st0 rows = .ok st →
      (∀ p ∈ st0.nodes, p.1 ≠ "") → ∀ p ∈ st.nodes, p.1 ≠ "" := by
  intro rows
  induction rows with
  | nil =>
    intro st0 st h hinv
    cases h
    exact hinv
  | cons c cs ih =>
    intro st0 st h hinv
    simp only [processRows] at h
    cases hp : processRow st0 (readRow fieldnames cm c) with
    | error e => rw [hp] at h; exact absurd h (by simp)
    | ok st1 =>
      rw [hp] at h
      refine ih st1 st h ?_
      rcases processRow_ok_shape st0 st1 _ hp with heq |
        ⟨q0, n0, p0, hq, hn, hpz, hq', hn', hnodes, harm⟩
      · subst heq; exact hinv
      · rw [hnodes]
        exact add_keys_ne _ _ _ (lowerStr_ne_empty _ hn')
          (add_keys_ne _ _ _ (lowerStr_ne_empty _ hq') hinv)

theorem processRow_valid_nodes (st st1 : BuildState) (q0 n0 p0 : String)
    (l rm : Option String) (hq' : ¬ strip q0 = "") (hn' : ¬ strip n0 = "")
    (h : processRow st ⟨some q0, some n0, some p0, l, rm⟩ = .ok st1) :
    st1.nodes =
      add_or_update_node (add_or_update_node st.nodes (strip q0) "") (strip n0) (strip p0) := by
  by_cases hdup : sortPair (lowerStr (strip q0)) (lowerStr (strip n0)) ∈ st.processed_links
  · rw [processRow_dup st q0 n0 p0 l rm hq' hn' hdup] at h
    injection h with h
    rw [← h]
  · cases l with
    | none =>
      rw [processRow_fresh_missingIf st q0 n0 p0 none rm hq' hn' hdup (Or.inl rfl)] at h
      exact absurd h (by simp)
    | some l0 =>
      cases rm with
      | none =>
        rw [processRow_fresh_missingIf st q0 n0 p0 (some l0) none hq' hn' hdup (Or.inr rfl)] at h
        exact absurd h (by simp)
      | some rm0 =>
        rw [processRow_fresh st q0 n0 p0 l0 rm0 hq' hn' hdup] at h
        injection h with h
        rw [← h]

theorem processRows_keys (fieldnames : List String) (cm : ColMap) :
    ∀ (rows : List (List String)) (st0 st : BuildState),
      processRows fieldnames cm st0 rows = .ok st →
      st.nodes.map Prod.fst =
        specNodeKeysFrom (st0.nodes.map Prod.fst) (rows.map (readRow fieldnames cm)) := by
  intro rows
  induction rows with
  | nil => intro st0 st h; cases h; rfl
  | cons c cs ih =>
    intro st0 st h
    simp only [processRows] at h
    cases hp : processRow st0 (readRow fieldnames cm c) with
    | error e => rw [hp] at h; exact absurd h (by simp)
    | ok st1 =>
      rw [hp] at h
      simp only [List.map_cons, specNodeKeysFrom]
      cases hq2 : (readRow fieldnames cm c).queried with
      | none =>
        rw [processRow_none_error st0 _ (Or.inl hq2)] at hp
        exact absurd hp (by simp)
      | some q0 =>
      cases hn2 : (readRow fieldnames cm c).neighbor with
      | none =>
        rw [processRow_none_error st0 _ (Or.inr (Or.inl hn2))] at hp
        exact absurd hp (by simp)
      | some n0 =>
      cases hp2 : (readRow fieldnames cm c).platform with
      | none =>
        rw [processRow_none_error st0 _ (Or.inr (Or.inr hp2))] at hp
        exact absurd hp (by simp)
      | some p0 =>
        simp only [hq2, hn2, hp2]
        have hr : readRow fieldnames cm c =
            ⟨some q0, some n0, some p0, (readRow fieldnames cm c).local_if,
             (readRow fieldnames cm c).remote_if⟩ := by
          rw [← hq2, ← hn2, ← hp2]
        by_cases hskip : strip q0 = "" ∨ strip n0 = ""
        · rw [hr, processRow_skip st0 q0 n0 p0 _ _ hskip] at hp
          injection hp with hp
          subst hp
          rw [if_pos hskip]
          exact ih st0 st h
        · push_neg at hskip
          rw [if_neg (not_or.mpr ⟨hskip.1, hskip.2⟩)]
          rw [hr] at hp
          have hnodes := processRow_valid_nodes st0 st1 q0 n0 p0 _ _ hskip.1 hskip.2 hp
          have hkeys : st1.nodes.map Prod.fst =
              firstSeenStep (firstSeenStep (st0.nodes.map Prod.fst) (lowerStr (strip q0)))
                (lowerStr (strip n0)) := by
            rw [hnodes, keys_add, keys_add]
          rw [ih st1 st h, hkeys]

/-! ### Sanitization lemmas -/

theorem char_toNat_ofNat (n : Nat) (h : n.isValidChar) : (Char.ofNat n).toNat = n := by
  rw [Char.ofNat, dif_pos h]
  rfl

theorem toLower_not_upper (c : Char) :
    ¬ (65 ≤ (Char.toLower c).toNat ∧ (Char.toLower c).toNat ≤ 90) := by
  simp only [Char.toLower]
  split
  · next hc =>
    have hv : (c.toNat + 32).isValidChar := Or.inl (by omega)
    rw [char_toNat_ofNat _ hv]
    omega
  · next hc => omega

theorem toLower_fixed (c : Char) (h : ¬ (65 ≤ c.toNat ∧ c.toNat ≤ 90)) :
    Char.toLower c = c := by
  simp only [Char.toLower]
  rw [if_neg (by omega)]

theorem sanitizeChar_ident (c : Char) : isIdentChar (sanitizeChar c) := by
  unfold sanitizeChar
  split
  · assumption
  · show isIdentChar '_'
    decide

theorem sanitizeChar_not_upper (c : Char) :
    ¬ (65 ≤ (sanitizeChar (Char.toLower c)).toNat ∧
        (sanitizeChar (Char.toLower c)).toNat ≤ 90) := by
  unfold sanitizeChar
  split
  · exact toLower_not_upper c
  · show ¬ (65 ≤ ('_' : Char).toNat ∧ ('_' : Char).toNat ≤ 90)
    decide

theorem sanitizeChar_toLower_idem (c : Char) :
    sanitizeChar (Char.toLower (sanitizeChar (Char.toLower c))) =
      sanitizeChar (Char.toLower c) := by
  have h1 : isIdentChar (sanitizeChar (Char.toLower c)) := sanitizeChar_ident (Char.toLower c)
  have h2 := sanitizeChar_not_upper c
  have h3 : ∀ d, isIdentChar d → sanitizeChar d = d := fun d hd => if_pos hd
  rw [toLower_fixed _ h2, h3 _ h1]

theorem sanitize_idempotent (s : String) :
    sanitize_for_mermaid_id (sanitize_for_mermaid_id s) = sanitize_for_mermaid_id s := by
  unfold sanitize_for_mermaid_id lowerStr
  dsimp only
  simp only [List.map_map]
  congr 1
  exact List.map_congr_left (fun a _ => sanitizeChar_toLower_idem a)

theorem sanitize_chars_ident (s : String) :
    ∀ c ∈ (sanitize_for_mermaid_id s).data, isIdentChar c := by
  intro c hc
  unfold sanitize_for_mermaid_id at hc
  dsimp only at hc
  rcases List.mem_map.mp hc with ⟨a, _, ha⟩
  rw [← ha]
  exact sanitizeChar_ident a

theorem sanitize_ne_empty (s : String) (h : s ≠ "") : sanitize_for_mermaid_id s ≠ "" := by
  intro hc
  apply h
  have h3 : (lowerStr s).data.map sanitizeChar = [] := congrArg String.data hc
  have h4 : (lowerStr s).data = [] := List.map_eq_nil_iff.mp h3
  have h5 : s.data.map Char.toLower = [] := h4
  have h6 : s.data = [] := List.map_eq_nil_iff.mp h5
  cases s with
  | mk d =>
    simp only at h6
    rw [h6]

/-! ### Shape of the whole pass -/

theorem strData_append (a b : String) : (a ++ b).data = a.data ++ b.data := by
  cases a; cases b; rfl

theorem emitScript_ne_empty (st : BuildState) : emitScript st ≠ "" := by
  intro h
  have h2 := congrArg String.data h
  simp [emitScript, strData_append] at h2

theorem generate_ok_shape (fieldnames : List String) (rows : List (List String))
    (script : String) (h : generate_mermaid_from_csv fieldnames rows = .ok script) :
    ∃ cq cn cl cr st,
      find_col fieldnames "Queried_Device_Name" = some cq ∧
      find_col fieldnames "Neighbor_Device_ID" = some cn ∧
      find_col fieldnames "local_interface" = some cl ∧
      find_col fieldnames "Remote_Interface" = some cr ∧
      processRows fieldnames ⟨cq, cn, find_col fieldnames "Neighbor_Platform", cl, cr⟩
        initState rows = .ok st ∧
      script = emitScript st := by
  simp only [generate_mermaid_from_csv] at h
  split at h
  · next cq cn cl cr hqc hnc hlc hrc =>
    cases hpr : processRows fieldnames
        ⟨cq, cn, find_col fieldnames "Neighbor_Platform", cl, cr⟩ initState rows with
    | ok st =>
      rw [hpr] at h
      injection h with h
      exact ⟨cq, cn, cl, cr, st, hqc, hnc, hlc, hrc, hpr, h.symm⟩
    | error e =>
      rw [hpr] at h
      exact absurd h (by simp)
  · exact absurd h (by simp)

theorem generate_schemaError (fieldnames : List String) (rows : List (List String))
    (hmiss : find_col fieldnames "Queried_Device_Name" = none ∨
             find_col fieldnames "Neighbor_Device_ID" = none ∨
             find_col fieldnames "local_interface" = none ∨
             find_col fieldnames "Remote_Interface" = none) :
    generate_mermaid_from_csv fieldnames rows =
      .error (.schemaError requiredColumnsReport fieldnames) := by
  simp only [generate_mermaid_from_csv]
  split
  · next cq cn cl cr hqc hnc hlc hrc =>
    rcases hmiss with hm | hm | hm | hm
    · rw [hm] at hqc; exact Option.noConfusion hqc
    · rw [hm] at hnc; exact Option.noConfusion hnc
    · rw [hm] at hlc; exact Option.noConfusion hlc
    · rw [hm] at hrc; exact Option.noConfusion hrc
  · rfl

theorem lookupNode_add_preserved (nodes : List (String × NodeData))
    (name platform k : String) (d : NodeData) (hd : lookupNode nodes k = some d)
    (hcase : k ≠ lowerStr name ∨ platform = "") :
    lookupNode (add_or_update_node nodes name platform) k = some d := by
  rcases hcase with hk | hpe
  · rw [lookupNode_add_of_ne _ _ _ _ hk]
    exact hd
  · subst hpe
    by_cases hk : k = lowerStr name
    · subst hk
      rw [lookupNode_add_self, hd]
      show (if d.platform = "Unknown" ∧ ("" : String) ≠ "" then
              some ⟨d.display_name, ""⟩ else some d) = some d
      rw [if_neg (by rintro ⟨_, h2⟩; exact h2 rfl)]
    · rw [lookupNode_add_of_ne _ _ _ _ hk]
      exact hd

/-! ### Claim theorems -/

/-- C1: for rows describing the same unordered (case-insensitive) device pair,
exactly one edge is kept: the first row introducing a pair appends the single
edge for it, labelled `"<local> -- <remote>"` from that row's interface cells;
any later row whose pair signature is already processed leaves the edge list
(and hence every stored label) unchanged; and after any full pass the stored
edges have pairwise-distinct pair signatures, each recorded in
`processed_links`. -/
theorem claim_C1_duplicate_pair_single_edge :
    (∀ (st : BuildState) (q0 n0 p0 : String) (l rm : Option String),
      ¬ strip q0 = "" → ¬ strip n0 = "" →
      sortPair (lowerStr (strip q0)) (lowerStr (strip n0)) ∈ st.processed_links →
      ∃ st', processRow st ⟨some q0, some n0, some p0, l, rm⟩ = .ok st' ∧
        st'.edges = st.edges ∧ st'.processed_links = st.processed_links) ∧
    (∀ (st : BuildState) (q0 n0 p0 l0 rm0 : String),
      ¬ strip q0 = "" → ¬ strip n0 = "" →
      sortPair (lowerStr (strip q0)) (lowerStr (strip n0)) ∉ st.processed_links →
      ∃ st', processRow st ⟨some q0, some n0, some p0, some l0, some rm0⟩ = .ok st' ∧
        st'.edges = st.edges ++ [⟨lowerStr (strip q0), lowerStr (strip n0),
                                  strip l0 ++ " -- " ++ strip rm0⟩] ∧
        sortPair (lowerStr (strip q0)) (lowerStr (strip n0)) ∈ st'.processed_links) ∧
    (∀ (fieldnames : List String) (cm : ColMap) (rows : List (List String)) (st : BuildState),
      processRows fieldnames cm initState rows = .ok st →
      (st.edges.map edgeSig).Nodup ∧ ∀ e ∈ st.edges, edgeSig e ∈ st.processed_links) := by
  refine ⟨?_, ?_, ?_⟩
  · intro st q0 n0 p0 l rm hq hn hdup
    exact ⟨_, processRow_dup st q0 n0 p0 l rm hq hn hdup, rfl, rfl⟩
  · intro st q0 n0 p0 l0 rm0 hq hn hfresh
    exact ⟨_, processRow_fresh st q0 n0 p0 l0 rm0 hq hn hfresh, rfl,
           List.mem_cons_self _ _⟩
  · intro fieldnames cm rows st h
    have hinv := processRows_edgeSig_inv fieldnames cm rows initState st h
      (by intro e he; exact absurd he (List.not_mem_nil e)) List.nodup_nil
    exact ⟨hinv.2, hinv.1⟩

/-- C1 witness: a duplicate `(A, B)` row leaves the single stored edge and its
label untouched, while a fresh `(A, B)` row from the empty state appends the
edge labelled from that row. -/
theorem claim_C1_witness :
    (∃ st', processRow ⟨[("b", ⟨"B", "Unknown"⟩)], [⟨"a", "b", "Gi1 -- Gi2"⟩], [("a", "b")]⟩
        ⟨some "A", some "B", some "", some "Gi9", some "Gi8"⟩ = .ok st' ∧
      st'.edges = [⟨"a", "b", "Gi1 -- Gi2"⟩] ∧ st'.processed_links = [("a", "b")]) ∧
    (∃ st', processRow initState ⟨some "A", some "B", some "", some "Gi1", some "Gi2"⟩ =
        .ok st' ∧
      st'.edges = [⟨"a", "b", "Gi1 -- Gi2"⟩] ∧ ("a", "b") ∈ st'.processed_links) := by
  constructor
  · exact claim_C1_duplicate_pair_single_edge.1
      ⟨[("b", ⟨"B", "Unknown"⟩)], [⟨"a", "b", "Gi1 -- Gi2"⟩], [("a", "b")]⟩
      "A" "B" "" (some "Gi9") (some "Gi8") (by decide) (by decide) (by decide)
  · obtain ⟨st', h1, h2, h3⟩ := claim_C1_duplicate_pair_single_edge.2.1
      initState "A" "B" "" "Gi1" "Gi2" (by decide) (by decide) (by decide)
    exact ⟨st', h1, by simpa using h2, by simpa using h3⟩

/-- C2: a node's platform starts as the given value, or as the sentinel
"Unknown" when that value is empty; a later row can replace an "Unknown"
platform by a non-empty value; a platform other than "Unknown" is never
changed by any later upsert, and this persists across any sequence of
ingested rows in any order. -/
theorem claim_C2_platform_monotonic :
    (∀ (nodes : List (String × NodeData)) (name platform : String),
      lookupNode nodes (lowerStr name) = none →
      lookupNode (add_or_update_node nodes name platform) (lowerStr name) =
        some ⟨name, if platform = "" then "Unknown" else platform⟩) ∧
    (∀ (nodes : List (String × NodeData)) (name platform k : String) (d : NodeData),
      lookupNode nodes k = some d → d.platform ≠ "Unknown" →
      lookupNode (add_or_update_node nodes name platform) k = some d) ∧
    (∀ (nodes : List (String × NodeData)) (name platform : String) (d : NodeData),
      lookupNode nodes (lowerStr name) = some d → d.platform = "Unknown" → platform ≠ "" →
      lookupNode (add_or_update_node nodes name platform) (lowerStr name) =
        some ⟨d.display_name, platform⟩) ∧
    (∀ (nodes : List (String × NodeData)) (name platform k : String) (d : NodeData),
      lookupNode nodes k = some d → (k ≠ lowerStr name ∨ platform = "") →
      lookupNode (add_or_update_node nodes name platform) k = some d) ∧
    (∀ (fieldnames : List String) (cm : ColMap) (rows : List (List String))
       (st0 st : BuildState) (k : String) (d : NodeData),
      processRows fieldnames cm st0 rows = .ok st →
      lookupNode st0.nodes k = some d → d.platform ≠ "Unknown" →
      lookupNode st.nodes k = some d) := by
  refine ⟨?_, ?_, ?_, ?_, ?_⟩
  · intro nodes name platform h
    rw [lookupNode_add_self, h]
  · intro nodes name platform k d hd hpf
    exact lookupNode_add_frozen nodes name platform k d hd hpf
  · intro nodes name platform d hd hu hpe
    rw [lookupNode_add_self, hd]
    show (if d.platform = "Unknown" ∧ platform ≠ "" then
            some ⟨d.display_name, platform⟩ else some d) =
          some ⟨d.display_name, platform⟩
    rw [if_pos ⟨hu, hpe⟩]
  · intro nodes name platform k d hd hcase
    exact lookupNode_add_preserved nodes name platform k d hd hcase
  · intro fieldnames cm rows st0 st k d h hd hpf
    exact processRows_platform_frozen fieldnames cm rows st0 st k d h hd hpf

/-- C2 witness: a fresh node with empty platform starts "Unknown", a later
non-empty value upgrades it, and a specific platform survives an upsert. -/
theorem claim_C2_witness :
    lookupNode (add_or_update_node [] "B" "") (lowerStr "B") = some ⟨"B", "Unknown"⟩ ∧
    lookupNode (add_or_update_node [("b", ⟨"B", "Unknown"⟩)] "B" "CiscoIOS") (lowerStr "B") =
      some ⟨"B", "CiscoIOS"⟩ ∧
    lookupNode (add_or_update_node [("b", ⟨"B", "CiscoIOS"⟩)] "B" "Linux") "b" =
      some ⟨"B", "CiscoIOS"⟩ := by
  refine ⟨?_, ?_, ?_⟩
  · exact claim_C2_platform_monotonic.1 [] "B" "" (by decide)
  · exact claim_C2_platform_monotonic.2.2.1 [("b", ⟨"B", "Unknown"⟩)] "B" "CiscoIOS"
      ⟨"B", "Unknown"⟩ (by decide) rfl (by decide)
  · exact claim_C2_platform_monotonic.2.1 [("b", ⟨"B", "CiscoIOS"⟩)] "B" "Linux" "b"
      ⟨"B", "CiscoIOS"⟩ (by decide) (by decide)

/-- C4: a valid row whose unordered pair signature was already processed still
performs both node upserts (its resulting state applies `add_or_update_node`
for the queried and the neighbor device to the previous node dict) while the
edge list and the processed set stay unchanged; in particular such a row can
still upgrade the neighbor's platform from "Unknown". -/
theorem claim_C4_duplicate_still_upserts :
    ∀ (st : BuildState) (q0 n0 p0 : String) (l rm : Option String),
      ¬ strip q0 = "" → ¬ strip n0 = "" →
      sortPair (lowerStr (strip q0)) (lowerStr (strip n0)) ∈ st.processed_links →
      processRow st ⟨some q0, some n0, some p0, l, rm⟩ =
        .ok ⟨add_or_update_node (add_or_update_node st.nodes (strip q0) "")
               (strip n0) (strip p0),
             st.edges, st.processed_links⟩ ∧
      (∀ d : NodeData, lookupNode st.nodes (lowerStr (strip n0)) = some d →
        d.platform = "Unknown" → strip p0 ≠ "" →
        lookupNode (add_or_update_node (add_or_update_node st.nodes (strip q0) "")
            (strip n0) (strip p0)) (lowerStr (strip n0)) =
          some ⟨d.display_name, strip p0⟩) := by
  intro st q0 n0 p0 l rm hq hn hdup
  constructor
  · exact processRow_dup st q0 n0 p0 l rm hq hn hdup
  · intro d hd hu hpe
    have h1 : lookupNode (add_or_update_node st.nodes (strip q0) "")
        (lowerStr (strip n0)) = some d :=
      lookupNode_add_preserved _ _ _ _ _ hd (Or.inr rfl)
    rw [lookupNode_add_self, h1]
    show (if d.platform = "Unknown" ∧ strip p0 ≠ "" then
            some ⟨d.display_name, strip p0⟩ else some d) =
          some ⟨d.display_name, strip p0⟩
    rw [if_pos ⟨hu, hpe⟩]

/-- C4 witness: a duplicate `(A, B)` row still upgrades B's platform from
"Unknown" to "CiscoIOS" even though no edge is appended. -/
theorem claim_C4_witness :
    processRow ⟨[("b", ⟨"B", "Unknown"⟩)], [], [("a", "b")]⟩
        ⟨some "A", some "B", some "CiscoIOS", some "Gi1", some "Gi2"⟩ =
      .ok ⟨add_or_update_node (add_or_update_node [("b", ⟨"B", "Unknown"⟩)] "A" "")
             "B" "CiscoIOS", [], [("a", "b")]⟩ ∧
    lookupNode (add_or_update_node (add_or_update_node [("b", ⟨"B", "Unknown"⟩)] "A" "")
        "B" "CiscoIOS") "b" = some ⟨"B", "CiscoIOS"⟩ := by
  obtain ⟨h1, h2⟩ := claim_C4_duplicate_still_upserts
    ⟨[("b", ⟨"B", "Unknown"⟩)], [], [("a", "b")]⟩ "A" "B" "CiscoIOS"
    (some "Gi1") (some "Gi2") (by decide) (by decide) (by decide)
  exact ⟨h1, h2 ⟨"B", "Unknown"⟩ (by decide) rfl (by decide)⟩

/-- C3 counterexample: with a well-formed first row and a malformed (short)
second row, the whole pass returns an error and no diagram at all, although
the same input without the malformed row produces a diagram — the malformed
row is not merely skipped. -/
theorem claim_C3_counterexample :
    generate_mermaid_from_csv
        ["Queried_Device_Name", "Neighbor_Device_ID", "Neighbor_Platform",
         "local_interface", "Remote_Interface"]
        [["A", "B", "CiscoIOS", "Gi0/1", "Gi0/2"], ["C"]] = .error .rowError ∧
    (∃ s, generate_mermaid_from_csv
        ["Queried_Device_Name", "Neighbor_Device_ID", "Neighbor_Platform",
         "local_interface", "Remote_Interface"]
        [["A", "B", "CiscoIOS", "Gi0/1", "Gi0/2"]] = .ok s) :=
  ⟨rfl, ⟨_, rfl⟩⟩

/-- C3 (amended): a row with an empty (after trimming) queried or neighbor
device name is skipped with no effect at all on the builder state; but a
malformed row whose row-level read fails (a mandatory cell missing, as in a
row with fewer cells than the header) makes the whole pass fail: processing
aborts with an error and no diagram is produced, instead of the row merely
being skipped. -/
theorem claim_C3_amended :
    (∀ (st : BuildState) (q0 n0 p0 : String) (l rm : Option String),
      strip q0 = "" ∨ strip n0 = "" →
      processRow st ⟨some q0, some n0, some p0, l, rm⟩ = .ok st) ∧
    (∀ (fieldnames : List String) (cm : ColMap) (st : BuildState)
       (rows1 rows2 : List (List String)) (cells : List String),
      ((readRow fieldnames cm cells).queried = none ∨
       (readRow fieldnames cm cells).neighbor = none ∨
       (readRow fieldnames cm cells).platform = none) →
      processRows fieldnames cm st (rows1 ++ cells :: rows2) = .error .rowError) :=
  ⟨fun st q0 n0 p0 l rm h => processRow_skip st q0 n0 p0 l rm h,
   fun fieldnames cm st rows1 rows2 cells hbad =>
     processRows_badRow_error fieldnames cm rows1 rows2 cells hbad st⟩

/-- C3 witness: a whitespace-only queried name is skipped without effect, and
a short row aborts a pass that had already accepted a good row. -/
theorem claim_C3_amended_witness :
    processRow initState ⟨some " ", some "B", some "", some "Gi1", some "Gi2"⟩ =
      .ok initState ∧
    processRows
      ["Queried_Device_Name", "Neighbor_Device_ID", "Neighbor_Platform",
       "local_interface", "Remote_Interface"]
      ⟨"Queried_Device_Name", "Neighbor_Device_ID", some "Neighbor_Platform",
       "local_interface", "Remote_Interface"⟩ initState
      ([["A", "B", "CiscoIOS", "Gi0/1", "Gi0/2"]] ++ ["C"] :: []) = .error .rowError :=
  ⟨claim_C3_amended.1 initState " " "B" "" (some "Gi1") (some "Gi2") (Or.inl (by decide)),
   claim_C3_amended.2
     ["Queried_Device_Name", "Neighbor_Device_ID", "Neighbor_Platform",
      "local_interface", "Remote_Interface"]
     ⟨"Queried_Device_Name", "Neighbor_Device_ID", some "Neighbor_Platform",
      "local_interface", "Remote_Interface"⟩ initState
     [["A", "B", "CiscoIOS", "Gi0/1", "Gi0/2"]] [] ["C"]
     (Or.inr (Or.inl (by decide)))⟩

/-- C5: after a successful pass the node dict's keys are exactly the first-seen
ordered list of lowercased trimmed device names occurring (as queried or
neighbor) in valid rows, so the emitted node identifiers — the sanitized keys,
rendered in dict order — are the sanitized forms of that list, in first-seen
order. -/
theorem claim_C5_node_identifiers :
    ∀ (fieldnames : List String) (cm : ColMap) (rows : List (List String)) (st : BuildState),
      processRows fieldnames cm initState rows = .ok st →
      st.nodes.map Prod.fst = specNodeKeys (rows.map (readRow fieldnames cm)) ∧
      st.nodes.map (fun p => sanitize_for_mermaid_id p.1) =
        (specNodeKeys (rows.map (readRow fieldnames cm))).map sanitize_for_mermaid_id := by
  intro fieldnames cm rows st h
  have h1 : st.nodes.map Prod.fst = specNodeKeys (rows.map (readRow fieldnames cm)) :=
    processRows_keys fieldnames cm rows initState st h
  refine ⟨h1, ?_⟩
  rw [← h1, List.map_map]
  rfl

/-- C5 witness: two rows naming A, B and then B, a produce the first-seen
key list `["a", "b"]` and the matching sanitized identifier list. -/
theorem claim_C5_witness :
    ((⟨[("a", ⟨"A", "Unknown"⟩), ("b", ⟨"B", "CiscoIOS"⟩)],
       [⟨"a", "b", "Gi0/1 -- Gi0/2"⟩], [("a", "b")]⟩ : BuildState).nodes.map Prod.fst =
      specNodeKeys ([["A", "B", "CiscoIOS", "Gi0/1", "Gi0/2"], ["B", "a", "", "Gi9", "Gi9"]].map
        (readRow
          ["Queried_Device_Name", "Neighbor_Device_ID", "Neighbor_Platform",
           "local_interface", "Remote_Interface"]
          ⟨"Queried_Device_Name", "Neighbor_Device_ID", some "Neighbor_Platform",
           "local_interface", "Remote_Interface"⟩))) ∧
    ((⟨[("a", ⟨"A", "Unknown"⟩), ("b", ⟨"B", "CiscoIOS"⟩)],
       [⟨"a", "b", "Gi0/1 -- Gi0/2"⟩], [("a", "b")]⟩ : BuildState).nodes.map
        (fun p => sanitize_for_mermaid_id p.1) =
      (specNodeKeys ([["A", "B", "CiscoIOS", "Gi0/1", "Gi0/2"], ["B", "a", "", "Gi9", "Gi9"]].map
        (readRow
          ["Queried_Device_Name", "Neighbor_Device_ID", "Neighbor_Platform",
           "local_interface", "Remote_Interface"]
          ⟨"Queried_Device_Name", "Neighbor_Device_ID", some "Neighbor_Platform",
           "local_interface", "Remote_Interface"⟩))).map sanitize_for_mermaid_id) :=
  claim_C5_node_identifiers
    ["Queried_Device_Name", "Neighbor_Device_ID", "Neighbor_Platform",
     "local_interface", "Remote_Interface"]
    ⟨"Queried_Device_Name", "Neighbor_Device_ID", some "Neighbor_Platform",
     "local_interface", "Remote_Interface"⟩
    [["A", "B", "CiscoIOS", "Gi0/1", "Gi0/2"], ["B", "a", "", "Gi9", "Gi9"]]
    ⟨[("a", ⟨"A", "Unknown"⟩), ("b", ⟨"B", "CiscoIOS"⟩)],
     [⟨"a", "b", "Gi0/1 -- Gi0/2"⟩], [("a", "b")]⟩ rfl

/-- C6: after ingesting any row sequence from the empty state, the node count
is at most twice the number of valid rows, the edge count at most the number
of valid rows, and both endpoint keys of every stored edge are present in the
node dict. -/
theorem claim_C6_state_invariants :
    ∀ (fieldnames : List String) (cm : ColMap) (rows : List (List String)) (st : BuildState),
      processRows fieldnames cm initState rows = .ok st →
      st.nodes.length ≤ 2 * countValid fieldnames cm rows ∧
      st.edges.length ≤ countValid fieldnames cm rows ∧
      ∀ e ∈ st.edges, (lookupNode st.nodes e.fromKey).isSome ∧
                      (lookupNode st.nodes e.toKey).isSome := by
  intro fieldnames cm rows st h
  obtain ⟨h1, h2⟩ := processRows_bounds fieldnames cm rows initState st h
  refine ⟨by simpa [initState] using h1, by simpa [initState] using h2, ?_⟩
  exact processRows_endpoints fieldnames cm rows initState st h
    (by intro e he; exact absurd he (List.not_mem_nil e))

/-- C6 witness: one valid row yields 2 nodes ≤ 2·1, 1 edge ≤ 1, and both
edge endpoints present in the node dict. -/
theorem claim_C6_witness :
    2 ≤ 2 * countValid
        ["Queried_Device_Name", "Neighbor_Device_ID", "Neighbor_Platform",
         "local_interface", "Remote_Interface"]
        ⟨"Queried_Device_Name", "Neighbor_Device_ID", some "Neighbor_Platform",
         "local_interface", "Remote_Interface"⟩ [["X", "Y", "", "e1", "e2"]] ∧
    1 ≤ countValid
        ["Queried_Device_Name", "Neighbor_Device_ID", "Neighbor_Platform",
         "local_interface", "Remote_Interface"]
        ⟨"Queried_Device_Name", "Neighbor_Device_ID", some "Neighbor_Platform",
         "local_interface", "Remote_Interface"⟩ [["X", "Y", "", "e1", "e2"]] ∧
    (lookupNode [("x", ⟨"X", "Unknown"⟩), ("y", ⟨"Y", "Unknown"⟩)] "x").isSome ∧
    (lookupNode [("x", ⟨"X", "Unknown"⟩), ("y", ⟨"Y", "Unknown"⟩)] "y").isSome := by
  obtain ⟨h1, h2, h3⟩ := claim_C6_state_invariants
    ["Queried_Device_Name", "Neighbor_Device_ID", "Neighbor_Platform",
     "local_interface", "Remote_Interface"]
    ⟨"Queried_Device_Name", "Neighbor_Device_ID", some "Neighbor_Platform",
     "local_interface", "Remote_Interface"⟩
    [["X", "Y", "", "e1", "e2"]]
    ⟨[("x", ⟨"X", "Unknown"⟩), ("y", ⟨"Y", "Unknown"⟩)],
     [⟨"x", "y", "e1 -- e2"⟩], [("x", "y")]⟩ rfl
  exact ⟨h1, h2, (h3 ⟨"x", "y", "e1 -- e2"⟩ (by decide)).1,
         (h3 ⟨"x", "y", "e1 -- e2"⟩ (by decide)).2⟩

/-- C7: the identifier sanitization is total and idempotent, every character
of its output lies in the class `[a-zA-Z0-9_]`, a non-empty input yields a
non-empty output, and after any successful pass every identifier the emitter
derives — the sanitized node keys and the sanitized edge endpoint keys — is
non-empty with all characters in that class. -/
theorem claim_C7_sanitize_idempotent_total :
    (∀ s : String,
      sanitize_for_mermaid_id (sanitize_for_mermaid_id s) = sanitize_for_mermaid_id s) ∧
    (∀ s : String, ∀ c ∈ (sanitize_for_mermaid_id s).data, isIdentChar c) ∧
    (∀ s : String, s ≠ "" → sanitize_for_mermaid_id s ≠ "") ∧
    (∀ (fieldnames : List String) (cm : ColMap) (rows : List (List String)) (st : BuildState),
      processRows fieldnames cm initState rows = .ok st →
      (∀ p ∈ st.nodes, sanitize_for_mermaid_id p.1 ≠ "" ∧
        ∀ c ∈ (sanitize_for_mermaid_id p.1).data, isIdentChar c) ∧
      (∀ e ∈ st.edges, sanitize_for_mermaid_id e.fromKey ≠ "" ∧
        sanitize_for_mermaid_id e.toKey ≠ "")) := by
  refine ⟨sanitize_idempotent, sanitize_chars_ident, sanitize_ne_empty, ?_⟩
  intro fieldnames cm rows st h
  have hkeys := processRows_keys_ne fieldnames cm rows initState st h
    (by intro p hp; exact absurd hp (List.not_mem_nil p))
  constructor
  · intro p hp
    exact ⟨sanitize_ne_empty _ (hkeys p hp), sanitize_chars_ident _⟩
  · intro e he
    obtain ⟨hf, ht⟩ := processRows_endpoints fieldnames cm rows initState st h
      (by intro e2 he2; exact absurd he2 (List.not_mem_nil e2)) e he
    have hfk : e.fromKey ∈ st.nodes.map Prod.fst := by
      by_contra hc
      rw [← lookupNode_eq_none_iff] at hc
      rw [hc] at hf
      exact absurd hf (by simp)
    have htk : e.toKey ∈ st.nodes.map Prod.fst := by
      by_contra hc
      rw [← lookupNode_eq_none_iff] at hc
      rw [hc] at ht
      exact absurd ht (by simp)
    obtain ⟨p1, hp1, hpe1⟩ := List.mem_map.mp hfk
    obtain ⟨p2, hp2, hpe2⟩ := List.mem_map.mp htk
    exact ⟨hpe1 ▸ sanitize_ne_empty _ (hkeys p1 hp1),
           hpe2 ▸ sanitize_ne_empty _ (hkeys p2 hp2)⟩

/-- C7 witness: sanitizing `"A b/c"` once and twice agree, the result is
non-empty, and each of its characters is in the identifier class. -/
theorem claim_C7_witness :
    sanitize_for_mermaid_id (sanitize_for_mermaid_id "A b/c") =
      sanitize_for_mermaid_id "A b/c" ∧
    sanitize_for_mermaid_id "A b/c" ≠ "" ∧
    ∀ c ∈ (sanitize_for_mermaid_id "A b/c").data, isIdentChar c :=
  ⟨claim_C7_sanitize_idempotent_total.1 "A b/c",
   claim_C7_sanitize_idempotent_total.2.2.1 "A b/c" (by decide),
   claim_C7_sanitize_idempotent_total.2.1 "A b/c"⟩

/-- C8: when any of the four mandatory columns cannot be resolved from the
header case-insensitively, the pass stops with the schema-error report that
carries the expected column names and the found header list, and no diagram
is produced; when all four resolve, no schema error can be raised; and an
absent platform column is read as the empty string on rows without extra
cells. -/
theorem claim_C8_schema_error :
    (∀ (fieldnames : List String) (rows : List (List String)),
      (find_col fieldnames "Queried_Device_Name" = none ∨
       find_col fieldnames "Neighbor_Device_ID" = none ∨
       find_col fieldnames "local_interface" = none ∨
       find_col fieldnames "Remote_Interface" = none) →
      generate_mermaid_from_csv fieldnames rows =
        .error (.schemaError requiredColumnsReport fieldnames)) ∧
    (∀ (fieldnames : List String) (rows : List (List String)) (a b : List String),
      find_col fieldnames "Queried_Device_Name" ≠ none →
      find_col fieldnames "Neighbor_Device_ID" ≠ none →
      find_col fieldnames "local_interface" ≠ none →
      find_col fieldnames "Remote_Interface" ≠ none →
      generate_mermaid_from_csv fieldnames rows ≠ .error (.schemaError a b)) ∧
    (∀ (fieldnames : List String) (cm : ColMap) (cells : List String),
      cm.neighbor_platform = none → cells.length ≤ fieldnames.length →
      (readRow fieldnames cm cells).platform = some "") := by
  refine ⟨?_, ?_, ?_⟩
  · intro fieldnames rows hmiss
    exact generate_schemaError fieldnames rows hmiss
  · intro fieldnames rows a b h1 h2 h3 h4
    obtain ⟨cq, hq⟩ := Option.ne_none_iff_exists'.mp h1
    obtain ⟨cn, hn⟩ := Option.ne_none_iff_exists'.mp h2
    obtain ⟨cl, hl⟩ := Option.ne_none_iff_exists'.mp h3
    obtain ⟨cr, hr⟩ := Option.ne_none_iff_exists'.mp h4
    simp only [generate_mermaid_from_csv, hq, hn, hl, hr]
    cases hpr : processRows fieldnames
        ⟨cq, cn, find_col fieldnames "Neighbor_Platform", cl, cr⟩ initState rows with
    | ok st => simp
    | error e =>
      have he := processRows_error_rowError fieldnames _ rows initState e hpr
      subst he
      simp
  · intro fieldnames cm cells hpc hlen
    simp only [readRow, hpc]
    rw [if_neg (Nat.not_lt.mpr hlen)]

/-- C8 witness: the spec's scenario — a header missing `Remote_Interface`
yields the schema-error report and no diagram; and a complete header with a
platform-free column map reads the platform as empty. -/
theorem claim_C8_witness :
    generate_mermaid_from_csv
        ["Queried_Device_Name", "Neighbor_Device_ID", "Neighbor_Platform",
         "local_interface"]
        [["A", "B", "x", "Gi1"]] =
      .error (.schemaError requiredColumnsReport
        ["Queried_Device_Name", "Neighbor_Device_ID", "Neighbor_Platform",
         "local_interface"]) ∧
    (readRow ["Queried_Device_Name", "Neighbor_Device_ID", "local_interface",
              "Remote_Interface"]
      ⟨"Queried_Device_Name", "Neighbor_Device_ID", none, "local_interface",
       "Remote_Interface"⟩ ["A", "B", "Gi1", "Gi2"]).platform = some "" :=
  ⟨claim_C8_schema_error.1
     ["Queried_Device_Name", "Neighbor_Device_ID", "Neighbor_Platform",
      "local_interface"]
     [["A", "B", "x", "Gi1"]] (Or.inr (Or.inr (Or.inr (by decide)))),
   claim_C8_schema_error.2.2
     ["Queried_Device_Name", "Neighbor_Device_ID", "local_interface",
      "Remote_Interface"]
     ⟨"Queried_Device_Name", "Neighbor_Device_ID", none, "local_interface",
      "Remote_Interface"⟩ ["A", "B", "Gi1", "Gi2"] rfl (by decide)⟩

/-- C9: once the pass has produced a diagram, a failing write of the output
file does not change the success status: the save step reports the error on
stderr but still returns the script, `main` still prints the script and the
process exit code is 0. -/
theorem claim_C9_write_failure_still_success :
    ∀ (fieldnames : List String) (rows : List (List String)) (script path : String)
      (writeOk : Bool),
      generate_mermaid_from_csv fieldnames rows = .ok script →
      (saveAndReturn script (some path) writeOk).returned = script ∧
      (writeOk = false → (saveAndReturn script (some path) writeOk).stderr ≠ []) ∧
      mainExitCode (some ((saveAndReturn script (some path) writeOk).returned)) = 0 ∧
      script ∈ mainStdout (some ((saveAndReturn script (some path) writeOk).returned)) := by
  intro fieldnames rows script path writeOk h
  obtain ⟨cq, cn, cl, cr, st, _, _, _, _, _, hscript⟩ :=
    generate_ok_shape fieldnames rows script h
  have hne : script ≠ "" := by
    rw [hscript]
    exact emitScript_ne_empty st
  have hret : (saveAndReturn script (some path) writeOk).returned = script := by
    cases writeOk <;> rfl
  refine ⟨hret, ?_, ?_, ?_⟩
  · intro hw
    subst hw
    simp [saveAndReturn]
  · rw [hret]
    simp [mainExitCode, hne]
  · rw [hret]
    simp [mainStdout, hne]

/-- C9 witness: on the three-row scenario input, with a failing write, the
script is still returned and printed and the exit code is 0. -/
theorem claim_C9_witness :
    (saveAndReturn
        "graph TD;\n\n    %% Node Definitions\n    a[\"A\"];\n    b[\"B<br/><i>CiscoIOS</i>\"];\n    c[\"C<br/><i>Linux</i>\"];\n\n    %% Edge Definitions (Connections)\n    a ---|\"Gi0/1 -- Gi0/2\"| b;\n    a ---|\"Gi0/3 -- eth0\"| c;\n"
        (some "network_diagram.md") false).returned =
      "graph TD;\n\n    %% Node Definitions\n    a[\"A\"];\n    b[\"B<br/><i>CiscoIOS</i>\"];\n    c[\"C<br/><i>Linux</i>\"];\n\n    %% Edge Definitions (Connections)\n    a ---|\"Gi0/1 -- Gi0/2\"| b;\n    a ---|\"Gi0/3 -- eth0\"| c;\n" ∧
    (false = false →
      (saveAndReturn
        "graph TD;\n\n    %% Node Definitions\n    a[\"A\"];\n    b[\"B<br/><i>CiscoIOS</i>\"];\n    c[\"C<br/><i>Linux</i>\"];\n\n    %% Edge Definitions (Connections)\n    a ---|\"Gi0/1 -- Gi0/2\"| b;\n    a ---|\"Gi0/3 -- eth0\"| c;\n"
        (some "network_diagram.md") false).stderr ≠ []) ∧
    mainExitCode (some ((saveAndReturn
        "graph TD;\n\n    %% Node Definitions\n    a[\"A\"];\n    b[\"B<br/><i>CiscoIOS</i>\"];\n    c[\"C<br/><i>Linux</i>\"];\n\n    %% Edge Definitions (Connections)\n    a ---|\"Gi0/1 -- Gi0/2\"| b;\n    a ---|\"Gi0/3 -- eth0\"| c;\n"
        (some "network_diagram.md") false).returned)) = 0 ∧
    "graph TD;\n\n    %% Node Definitions\n    a[\"A\"];\n    b[\"B<br/><i>CiscoIOS</i>\"];\n    c[\"C<br/><i>Linux</i>\"];\n\n    %% Edge Definitions (Connections)\n    a ---|\"Gi0/1 -- Gi0/2\"| b;\n    a ---|\"Gi0/3 -- eth0\"| c;\n"
      ∈ mainStdout (some ((saveAndReturn
        "graph TD;\n\n    %% Node Definitions\n    a[\"A\"];\n    b[\"B<br/><i>CiscoIOS</i>\"];\n    c[\"C<br/><i>Linux</i>\"];\n\n    %% Edge Definitions (Connections)\n    a ---|\"Gi0/1 -- Gi0/2\"| b;\n    a ---|\"Gi0/3 -- eth0\"| c;\n"
        (some "network_diagram.md") false).returned)) :=
  claim_C9_write_failure_still_success
    ["Queried_Device_Name", "Neighbor_Device_ID", "Neighbor_Platform",
     "local_interface", "Remote_Interface"]
    [["A", "B", "CiscoIOS", "Gi0/1", "Gi0/2"], ["B", "A", "", "Gi0/2", "Gi0/1"],
     ["A", "C", "Linux", "Gi0/3", "eth0"]]
    "graph TD;\n\n    %% Node Definitions\n    a[\"A\"];\n    b[\"B<br/><i>CiscoIOS</i>\"];\n    c[\"C<br/><i>Linux</i>\"];\n\n    %% Edge Definitions (Connections)\n    a ---|\"Gi0/1 -- Gi0/2\"| b;\n    a ---|\"Gi0/3 -- eth0\"| c;\n"
    "network_diagram.md" false rfl

/-- C10: double quotes are escaped to `#quot;` only in the edge label; the
node display name is embedded verbatim, so the device name `A"B` yields the
node line `    a_b["A"B"];` with an unescaped quote inside the quoted string,
while the edge label `Gi"1 -- Gi0/2` is emitted as `Gi#quot;1 -- Gi0/2`. -/
theorem claim_C10_quote_escaping :
    generate_mermaid_from_csv
        ["Queried_Device_Name", "Neighbor_Device_ID", "Neighbor_Platform",
         "local_interface", "Remote_Interface"]
        [["A\"B", "C", "", "Gi\"1", "Gi0/2"]] =
      .ok "graph TD;\n\n    %% Node Definitions\n    a_b[\"A\"B\"];\n    c[\"C\"];\n\n    %% Edge Definitions (Connections)\n    a_b ---|\"Gi#quot;1 -- Gi0/2\"| c;\n" :=
  rfl

end CsvMermaid
